import Mathlib

/-!
Shallow embedding of the transaction-ledger core of the repository
(src/transactions/enums.rs, src/transactions/transaction.rs,
src/accounts/account.rs, src/accounts/account_map.rs, src/accounts/mod.rs).

Modelling conventions:
* Rust `f32` amounts are modelled as exact rationals (`ℚ`); the spec's
  balance equations are stated exactly.
* Rust `i32` ids are modelled as `Int`; only equality on ids is used by
  the code, so overflow is irrelevant.
* A Rust `panic!` / `.unwrap()` failure is modelled as the explicit
  outcome `TxResult.panicked src` where `src` identifies the panic site;
  `Result::Err` is `TxResult.err msg` with the source's message string.
* `HashMap<i32, Account>` is modelled as an association list with
  first-match lookup and in-place replacement on insert, which has the
  same lookup semantics as the hash map for the operations used here.
-/

namespace Transactions

/-- Closed enumeration of the five operation kinds
(src/transactions/enums.rs, `TransactionType`). -/
inductive TransactionType where
  | DEPOSIT
  | WITHDRAWAL
  | DISPUTE
  | RESOLVE
  | CHARGEBACK
deriving DecidableEq

/-- One transaction record (src/transactions/transaction.rs, `Transaction`). -/
structure Transaction where
  transaction_type : TransactionType
  client : Int
  tx : Int
  amount : Option ℚ
deriving DecidableEq

/-- One client's balance state and accepted-transaction history
(src/accounts/account.rs, `Account`). -/
structure Account where
  id : Int
  amount_available : ℚ
  amount_held : ℚ
  total : ℚ
  locked : Bool
  transaction_log : List Transaction
deriving DecidableEq

/-- Constructor `Account::new`: fresh zero-balance unlocked account. -/
def Account.new (id : Int) : Account :=
  { id := id
    amount_available := 0
    amount_held := 0
    total := 0
    locked := false
    transaction_log := [] }

/-- The antecedent type each calling transaction type may match in
`Account::extract_transaction`: Resolve and Chargeback look for a Dispute,
Dispute looks for a Deposit.  For Deposit/Withdrawal callers the source
panics ("deposits and withdraws do not need to extract previous
transactions"); `Account::add_transaction` never calls the lookup with
those types, so that arm is modelled as `none` (no allowed category). -/
def allowed_category : TransactionType → Option TransactionType
  | .RESOLVE => some .DISPUTE
  | .CHARGEBACK => some .DISPUTE
  | .DISPUTE => some .DEPOSIT
  | _ => none

/-- Lookup `Account::extract_transaction`: linear scan of the log in insertion
order, first transaction matching both the id `tx` and the allowed
antecedent category wins. -/
def extract_transaction (transactions : List Transaction) (tx : Int)
    (transaction_type : TransactionType) : Option Transaction :=
  match allowed_category transaction_type with
  | none => none
  | some cat =>
      transactions.find? (fun t => t.tx == tx && t.transaction_type == cat)

/-- Outcome of `Account::add_transaction`: `Ok(account)`, `Err(msg)`, or a
process panic (with a tag identifying the panic site). -/
inductive TxResult where
  | ok (account : Account)
  | err (msg : String)
  | panicked (source : String)
deriving DecidableEq

/-- Tag for the `panic!` fired when `transaction.client != self.id` at the
top of `Account::add_transaction`. -/
def clientMismatchPanic : String := "transaction client is not the account id"

/-- Tag for any `.unwrap()` on a `None` inside `Account::add_transaction`. -/
def unwrapPanic : String := "unwrap on None"

/-- Operation `Account::add_transaction`: applies one transaction to the account,
returning the updated account or a rule-violation error.  Direct
translation of src/accounts/account.rs lines 96-186. -/
def Account.add_transaction (self : Account) (transaction : Transaction) :
    TxResult :=
  if transaction.client ≠ self.id then
    .panicked clientMismatchPanic
  else if self.locked then
    .err "account is locked"
  else
    match transaction.transaction_type with
    | .CHARGEBACK =>
      match extract_transaction self.transaction_log transaction.tx
          .CHARGEBACK with
      | none => .err "no dispute found for the chargeback"
      | some dispute_transaction =>
        match extract_transaction self.transaction_log transaction.tx
            dispute_transaction.transaction_type with
        | none => .panicked unwrapPanic
        | some disputed_transaction =>
          match disputed_transaction.amount with
          | none => .panicked unwrapPanic
          | some amount =>
            if self.amount_held < amount then
              .err "not enough held funds for the chargeback"
            else
              .ok { self with
                    amount_held := self.amount_held - amount
                    total := self.total - amount
                    locked := true
                    transaction_log := self.transaction_log ++ [transaction] }
    | .DEPOSIT =>
      match transaction.amount with
      | none => .panicked unwrapPanic
      | some amount =>
        .ok { self with
              amount_available := self.amount_available + amount
              total := self.total + amount
              transaction_log := self.transaction_log ++ [transaction] }
    | .WITHDRAWAL =>
      match transaction.amount with
      | none => .panicked unwrapPanic
      | some amount =>
        if amount > self.amount_available then
          .err "not enough funds for withdrawal"
        else
          .ok { self with
                amount_available := self.amount_available - amount
                total := self.total - amount
                transaction_log := self.transaction_log ++ [transaction] }
    | .DISPUTE =>
      match extract_transaction self.transaction_log transaction.tx
          .DISPUTE with
      | some inner_transaction =>
        match inner_transaction.amount with
        | none => .panicked unwrapPanic
        | some amount =>
          .ok { self with
                amount_available := self.amount_available - amount
                amount_held := self.amount_held + amount
                transaction_log := self.transaction_log ++ [transaction] }
      | none => .ok self
    | .RESOLVE =>
      match extract_transaction self.transaction_log transaction.tx
          .RESOLVE with
      | some inner_transaction =>
        match extract_transaction self.transaction_log transaction.tx
            inner_transaction.transaction_type with
        | none => .panicked unwrapPanic
        | some disputed_transaction =>
          match disputed_transaction.amount with
          | none => .panicked unwrapPanic
          | some amount =>
            .ok { self with
                  amount_available := self.amount_available + amount
                  amount_held := self.amount_held - amount
                  transaction_log := self.transaction_log ++ [transaction] }
      | none => .ok self

/-- The ledger (src/accounts/account_map.rs, `AccountMap`). -/
structure AccountMap where
  accounts : List (Int × Account)
  total_transaction_log : List Transaction
  total_error_transaction_log : List Transaction
deriving DecidableEq

/-- Constructor `AccountMap::new`: empty ledger. -/
def AccountMap.new : AccountMap :=
  { accounts := []
    total_transaction_log := []
    total_error_transaction_log := [] }

/-- Insert-or-replace on the association list modelling the hash map. -/
def insertAccount : List (Int × Account) → Int → Account →
    List (Int × Account)
  | [], k, a => [(k, a)]
  | (k', a') :: rest, k, a =>
      if k' = k then (k, a) :: rest else (k', a') :: insertAccount rest k a

/-- The account `AccountMap::add_transaction` routes the transaction to:
the stored account for `account_id` when present, else a fresh
`Account::new account_id`. -/
def AccountMap.routed_account (self : AccountMap) (account_id : Int) :
    Account :=
  match self.accounts.lookup account_id with
  | some found_account => found_account
  | none => Account.new account_id

/-- Outcome of a ledger step: the updated ledger, or a propagated panic. -/
inductive MapResult where
  | ok (map : AccountMap)
  | panicked (source : String)
deriving DecidableEq

/-- Operation `AccountMap::add_transaction`: route to the (possibly fresh) account;
on `Ok` install the new account state and append to the accepted log, on
`Err` append to the rejected log and leave the accounts untouched. -/
def AccountMap.add_transaction (self : AccountMap) (transaction : Transaction)
    (account_id : Int) : MapResult :=
  match (self.routed_account account_id).add_transaction transaction with
  | .ok new_state =>
      .ok { self with
            accounts := insertAccount self.accounts account_id new_state
            total_transaction_log := self.total_transaction_log ++ [transaction] }
  | .err _ =>
      .ok { self with
            total_error_transaction_log :=
              self.total_error_transaction_log ++ [transaction] }
  | .panicked source => .panicked source

/-- Entrypoint `log_transaction` (src/accounts/mod.rs): entry façade; a missing
ledger is replaced by a fresh one, then the transaction is routed to the
account keyed by its own `client` field. -/
def log_transaction (current_state : Option AccountMap)
    (transaction : Transaction) : MapResult :=
  let account_state :=
    match current_state with
    | some account_data => account_data
    | none => AccountMap.new
  account_state.add_transaction transaction transaction.client

/-- Folding a list of transactions through `log_transaction`, propagating
a panic if one ever fires (as in `main`'s processing loop). -/
def fold_transactions : AccountMap → List Transaction → MapResult
  | m, [] => .ok m
  | m, t :: rest =>
      match log_transaction (some m) t with
      | .ok m' => fold_transactions m' rest
      | .panicked source => .panicked source

/-- A whole processing run from the empty ledger. -/
def run_transactions (txs : List Transaction) : MapResult :=
  fold_transactions AccountMap.new txs

/-- Accounts reachable from a fresh account by applying transactions
through `Account.add_transaction` (successful steps). -/
inductive Account.Reachable : Account → Prop where
  | base (id : Int) : Account.Reachable (Account.new id)
  | step {a a' : Account} (t : Transaction) :
      Account.Reachable a → a.add_transaction t = .ok a' →
      Account.Reachable a'

/-- Every stored account is keyed by its own id: the consistency
invariant `accounts[k].id == k` of the accounts map. -/
def WellKeyed (m : AccountMap) : Prop :=
  ∀ p ∈ m.accounts, p.2.id = p.1

/-! Batteries marks the rational operations `@[irreducible]`; concrete
evaluation of ledger states (used by the witnesses below) needs them to
reduce. -/
attribute [local semireducible] Rat.add Rat.sub Rat.mul

/-! ### Helper lemmas about the association-list account store -/

theorem lookup_insertAccount_self (l : List (Int × Account)) (k : Int)
    (a : Account) : (insertAccount l k a).lookup k = some a := by
  induction l with
  | nil => simp [insertAccount]
  | cons p rest ih =>
    obtain ⟨k', a'⟩ := p
    by_cases h : k' = k
    · subst h; simp [insertAccount]
    · have hbeq : (k == k') = false := beq_eq_false_iff_ne.mpr (Ne.symm h)
      simp [insertAccount, if_neg h, List.lookup_cons, hbeq, ih]

theorem lookup_insertAccount_ne (l : List (Int × Account)) (j k : Int)
    (a : Account) (h : k ≠ j) :
    (insertAccount l j a).lookup k = l.lookup k := by
  have hbeq : (k == j) = false := beq_eq_false_iff_ne.mpr h
  induction l with
  | nil => simp [insertAccount, List.lookup_cons, hbeq]
  | cons p rest ih =>
    obtain ⟨k', a'⟩ := p
    by_cases h' : k' = j
    · subst h'
      simp [insertAccount, List.lookup_cons, hbeq]
    · by_cases hk : k = k'
      · subst hk
        simp [insertAccount, if_neg h', List.lookup_cons]
      · have hbeq' : (k == k') = false := beq_eq_false_iff_ne.mpr hk
        simp [insertAccount, if_neg h', List.lookup_cons, hbeq', ih]

theorem insertAccount_of_lookup_eq (l : List (Int × Account)) (k : Int)
    (a : Account) (h : l.lookup k = some a) : insertAccount l k a = l := by
  induction l with
  | nil => simp at h
  | cons p rest ih =>
    obtain ⟨k', a'⟩ := p
    by_cases hk : k' = k
    · subst hk
      simp only [List.lookup_cons_self, Option.some.injEq] at h
      simp [insertAccount, h]
    · have hbeq : (k == k') = false := beq_eq_false_iff_ne.mpr (Ne.symm hk)
      simp only [List.lookup_cons, hbeq] at h
      simp [insertAccount, hk, ih h]

/-! ### Helper lemmas about `Account.add_transaction` -/

/-- Every successful step preserves the account id. -/
theorem add_transaction_id {a a' : Account} {t : Transaction}
    (hstep : a.add_transaction t = .ok a') : a'.id = a.id := by
  unfold Account.add_transaction at hstep
  repeat' split at hstep
  all_goals cases hstep
  all_goals rfl

/-- Every successful step preserves `total = available + held`. -/
theorem add_transaction_balance {a a' : Account} {t : Transaction}
    (hstep : a.add_transaction t = .ok a')
    (hbal : a.total = a.amount_available + a.amount_held) :
    a'.total = a'.amount_available + a'.amount_held := by
  unfold Account.add_transaction at hstep
  repeat' split at hstep
  all_goals cases hstep
  all_goals (try dsimp only)
  all_goals linarith [hbal]

/-- Scanning an appended log finds the entry found in the left part. -/
theorem extract_append_left {l : List Transaction} (l₂ : List Transaction)
    {txid : Int} {ty : TransactionType} {x : Transaction}
    (h : extract_transaction l txid ty = some x) :
    extract_transaction (l ++ l₂) txid ty = some x := by
  cases ty <;>
    simp only [extract_transaction, allowed_category, List.find?_append]
      at h ⊢ <;>
    first
      | cases h
      | (rw [h]; rfl)

/-- If no entry of the left part carries the id `txid`, scanning the
appended log is scanning the right part. -/
theorem extract_append_fresh {l : List Transaction} (l₂ : List Transaction)
    {txid : Int} (ty : TransactionType)
    (hfresh : ∀ tr ∈ l, tr.tx ≠ txid) :
    extract_transaction (l ++ l₂) txid ty = extract_transaction l₂ txid ty := by
  unfold extract_transaction
  cases hc : allowed_category ty with
  | none => rfl
  | some cat =>
    have hnone : l.find? (fun t => t.tx == txid && t.transaction_type == cat)
        = none := by
      rw [List.find?_eq_none]
      intro x hx
      simp [hfresh x hx]
    simp [List.find?_append, hnone]

/-- C1: the balance invariant `total = available + held` holds on every
account reachable from a fresh account through `Account.add_transaction`. -/
theorem balance_invariant_reachable (a : Account)
    (h : Account.Reachable a) :
    a.total = a.amount_available + a.amount_held := by
  induction h with
  | base id => simp [Account.new]
  | step t hr hstep ih => exact add_transaction_balance hstep ih

/-- Witness for C1: the invariant, via the theorem, on the account reached
from `Account.new 1` by one concrete deposit. -/
theorem balance_invariant_reachable_witness :
    (Account.new 1).add_transaction ⟨.DEPOSIT, 1, 1, some 5⟩ =
      .ok ⟨1, 5, 0, 5, false, [⟨.DEPOSIT, 1, 1, some 5⟩]⟩ ∧
    (⟨1, 5, 0, 5, false, [⟨.DEPOSIT, 1, 1, some 5⟩]⟩ : Account).total =
      (⟨1, 5, 0, 5, false, [⟨.DEPOSIT, 1, 1, some 5⟩]⟩ : Account).amount_available +
      (⟨1, 5, 0, 5, false, [⟨.DEPOSIT, 1, 1, some 5⟩]⟩ : Account).amount_held :=
  ⟨by decide,
   balance_invariant_reachable _
     (Account.Reachable.step ⟨.DEPOSIT, 1, 1, some 5⟩
       (Account.Reachable.base 1) (by decide))⟩

/-- C3: on an unlocked account whose history holds a Deposit with the
disputed id, a Dispute moves the found deposit's amount from available to
held, leaves total and the locked flag unchanged, and appends the dispute
to history; the amount comes from the found deposit (the dispute record
carries no amount and its `amount` field is never consulted). -/
theorem dispute_moves_deposit_amount (a : Account) (t dep : Transaction)
    (amt : ℚ)
    (hlock : a.locked = false) (hcl : t.client = a.id)
    (hty : t.transaction_type = .DISPUTE)
    (hfind : extract_transaction a.transaction_log t.tx .DISPUTE = some dep)
    (hamt : dep.amount = some amt) :
    a.add_transaction t =
      .ok { a with amount_available := a.amount_available - amt
                   amount_held := a.amount_held + amt
                   transaction_log := a.transaction_log ++ [t] } := by
  simp [Account.add_transaction, hcl, hlock, hty, hfind, hamt]

/-- Witness for C3: disputing a logged deposit of 5 on a concrete
account. -/
theorem dispute_moves_deposit_amount_witness :
    (⟨1, 5, 0, 5, false, [⟨.DEPOSIT, 1, 1, some 5⟩]⟩ : Account).add_transaction
        ⟨.DISPUTE, 1, 1, none⟩ =
      .ok ⟨1, 0, 5, 5, false,
        [⟨.DEPOSIT, 1, 1, some 5⟩, ⟨.DISPUTE, 1, 1, none⟩]⟩ := by
  have h := dispute_moves_deposit_amount
    ⟨1, 5, 0, 5, false, [⟨.DEPOSIT, 1, 1, some 5⟩]⟩
    ⟨.DISPUTE, 1, 1, none⟩ ⟨.DEPOSIT, 1, 1, some 5⟩ 5
    rfl rfl rfl (by decide) rfl
  rw [h]
  decide

/-- C2: chargeback on an unlocked account: with no Dispute on record it is
rejected with the no-dispute error and the ledger keeps the account (and
hence all balances and the lock flag) unchanged, appending the record to
the rejected log; with a Dispute on record resolving to a deposit of
amount `amt`, it is rejected with the insufficient-held-funds error when
`held < amt`, and otherwise subtracts `amt` from held and from total and
locks the account. -/
theorem chargeback_behaviour (a : Account) (t : Transaction)
    (hlock : a.locked = false) (hcl : t.client = a.id)
    (hty : t.transaction_type = .CHARGEBACK) :
    (extract_transaction a.transaction_log t.tx .CHARGEBACK = none →
      a.add_transaction t = .err "no dispute found for the chargeback" ∧
      ∀ m : AccountMap, m.routed_account t.client = a →
        m.add_transaction t t.client =
          .ok { m with total_error_transaction_log :=
                  m.total_error_transaction_log ++ [t] }) ∧
    (∀ d dep : Transaction, ∀ amt : ℚ,
      extract_transaction a.transaction_log t.tx .CHARGEBACK = some d →
      extract_transaction a.transaction_log t.tx d.transaction_type = some dep →
      dep.amount = some amt →
      (a.amount_held < amt →
        a.add_transaction t = .err "not enough held funds for the chargeback") ∧
      (¬ a.amount_held < amt →
        a.add_transaction t =
          .ok { a with amount_held := a.amount_held - amt
                       total := a.total - amt
                       locked := true
                       transaction_log := a.transaction_log ++ [t] })) := by
  constructor
  · intro hfind
    have hacct : a.add_transaction t =
        .err "no dispute found for the chargeback" := by
      simp [Account.add_transaction, hcl, hlock, hty, hfind]
    refine ⟨hacct, ?_⟩
    intro m hroute
    simp [AccountMap.add_transaction, hroute, hacct]
  · intro d dep amt hd hdep hamt
    constructor
    · intro hheld
      simp [Account.add_transaction, hcl, hlock, hty, hd, hdep, hamt, hheld]
    · intro hheld
      simp [Account.add_transaction, hcl, hlock, hty, hd, hdep, hamt, hheld]

/-- Witness for C2: a chargeback with no dispute on record is rejected on
a concrete ledger, and a chargeback of a disputed deposit of 5 locks a
concrete account. -/
theorem chargeback_behaviour_witness :
    (⟨1, 0, 0, 0, false, []⟩ : Account).add_transaction
        ⟨.CHARGEBACK, 1, 9, none⟩ =
      .err "no dispute found for the chargeback" ∧
    (⟨1, 0, 5, 5, false,
        [⟨.DEPOSIT, 1, 1, some 5⟩, ⟨.DISPUTE, 1, 1, none⟩]⟩ :
      Account).add_transaction ⟨.CHARGEBACK, 1, 1, none⟩ =
      .ok ⟨1, 0, 0, 0, true,
        [⟨.DEPOSIT, 1, 1, some 5⟩, ⟨.DISPUTE, 1, 1, none⟩,
         ⟨.CHARGEBACK, 1, 1, none⟩]⟩ := by
  constructor
  · exact ((chargeback_behaviour ⟨1, 0, 0, 0, false, []⟩
      ⟨.CHARGEBACK, 1, 9, none⟩ rfl rfl rfl).1 (by decide)).1
  · have h := ((chargeback_behaviour
      ⟨1, 0, 5, 5, false,
        [⟨.DEPOSIT, 1, 1, some 5⟩, ⟨.DISPUTE, 1, 1, none⟩]⟩
      ⟨.CHARGEBACK, 1, 1, none⟩ rfl rfl rfl).2
      ⟨.DISPUTE, 1, 1, none⟩ ⟨.DEPOSIT, 1, 1, some 5⟩ 5
      (by decide) (by decide) rfl).2 (by decide)
    rw [h]
    decide

/-- C5: a withdrawal on an unlocked account is rejected with the
insufficient-funds error exactly when the amount exceeds `available`; on
rejection the ledger keeps the account unchanged and appends the record to
the rejected log; otherwise (in particular when the amount equals
`available`) available and total each decrease by the amount and the
withdrawal is appended to history. -/
theorem withdrawal_behaviour (a : Account) (t : Transaction) (amt : ℚ)
    (hlock : a.locked = false) (hcl : t.client = a.id)
    (hty : t.transaction_type = .WITHDRAWAL) (hamt : t.amount = some amt) :
    (a.add_transaction t = .err "not enough funds for withdrawal" ↔
      amt > a.amount_available) ∧
    (amt > a.amount_available →
      ∀ m : AccountMap, m.routed_account t.client = a →
        m.add_transaction t t.client =
          .ok { m with total_error_transaction_log :=
                  m.total_error_transaction_log ++ [t] }) ∧
    (¬ amt > a.amount_available →
      a.add_transaction t =
        .ok { a with amount_available := a.amount_available - amt
                     total := a.total - amt
                     transaction_log := a.transaction_log ++ [t] }) := by
  have hok : ¬ amt > a.amount_available →
      a.add_transaction t =
        .ok { a with amount_available := a.amount_available - amt
                     total := a.total - amt
                     transaction_log := a.transaction_log ++ [t] } := by
    intro hle
    simp [Account.add_transaction, hcl, hlock, hty, hamt, hle]
  have herr : amt > a.amount_available →
      a.add_transaction t = .err "not enough funds for withdrawal" := by
    intro hgt
    simp [Account.add_transaction, hcl, hlock, hty, hamt, hgt]
  refine ⟨⟨fun h => ?_, herr⟩, fun hgt m hroute => ?_, hok⟩
  · by_contra hle
    rw [hok hle] at h
    cases h
  · simp [AccountMap.add_transaction, hroute, herr hgt]

/-- Witness for C5: withdrawing 20 from a fresh account with available 4
is rejected and lands in the rejected log; withdrawing exactly 4
succeeds. -/
theorem withdrawal_behaviour_witness :
    (⟨1, 4, 0, 4, false, []⟩ : Account).add_transaction
        ⟨.WITHDRAWAL, 1, 1, some 20⟩ =
      .err "not enough funds for withdrawal" ∧
    (⟨1, 4, 0, 4, false, []⟩ : Account).add_transaction
        ⟨.WITHDRAWAL, 1, 2, some 4⟩ =
      .ok ⟨1, 0, 0, 0, false, [⟨.WITHDRAWAL, 1, 2, some 4⟩]⟩ := by
  constructor
  · exact (withdrawal_behaviour ⟨1, 4, 0, 4, false, []⟩
      ⟨.WITHDRAWAL, 1, 1, some 20⟩ 20 rfl rfl rfl rfl).1.mpr (by decide)
  · have h := (withdrawal_behaviour ⟨1, 4, 0, 4, false, []⟩
      ⟨.WITHDRAWAL, 1, 2, some 4⟩ 4 rfl rfl rfl rfl).2.2 (by decide)
    rw [h]
    decide

/-- C4: on an unlocked account, a Dispute whose id matches no Deposit in
this account's own history, or a Resolve whose id matches no Dispute
there, returns success with the account unchanged and nothing appended to
its history, and the Ledger records the transaction in the accepted log,
leaving the accounts map and the rejected log untouched. -/
theorem missing_target_noop (a : Account) (t : Transaction)
    (hlock : a.locked = false) (hcl : t.client = a.id)
    (hty : t.transaction_type = .DISPUTE ∨ t.transaction_type = .RESOLVE)
    (hfind : extract_transaction a.transaction_log t.tx t.transaction_type
      = none) :
    a.add_transaction t = .ok a ∧
    ∀ m : AccountMap, m.accounts.lookup t.client = some a →
      m.add_transaction t t.client =
        .ok { m with total_transaction_log :=
                m.total_transaction_log ++ [t] } := by
  have hacct : a.add_transaction t = .ok a := by
    rcases hty with hty | hty <;> rw [hty] at hfind <;>
      simp [Account.add_transaction, hcl, hlock, hty, hfind]
  refine ⟨hacct, fun m hl => ?_⟩
  have hroute : m.routed_account t.client = a := by
    simp [AccountMap.routed_account, hl]
  have hins : insertAccount m.accounts t.client a = m.accounts :=
    insertAccount_of_lookup_eq _ _ _ hl
  simp [AccountMap.add_transaction, hroute, hacct, hins]

/-- Witness for C4: disputing an id whose only occurrence in history is a
Withdrawal is a tolerated no-op on a concrete ledger. -/
theorem missing_target_noop_witness :
    (⟨1, 3, 0, 3, false, [⟨.WITHDRAWAL, 1, 1, some 2⟩]⟩ :
        Account).add_transaction ⟨.DISPUTE, 1, 1, none⟩ =
      .ok ⟨1, 3, 0, 3, false, [⟨.WITHDRAWAL, 1, 1, some 2⟩]⟩ ∧
    (⟨[(1, ⟨1, 3, 0, 3, false, [⟨.WITHDRAWAL, 1, 1, some 2⟩]⟩)], [], []⟩ :
        AccountMap).add_transaction ⟨.DISPUTE, 1, 1, none⟩ 1 =
      .ok ⟨[(1, ⟨1, 3, 0, 3, false, [⟨.WITHDRAWAL, 1, 1, some 2⟩]⟩)],
           [⟨.DISPUTE, 1, 1, none⟩], []⟩ := by
  have h := missing_target_noop
    ⟨1, 3, 0, 3, false, [⟨.WITHDRAWAL, 1, 1, some 2⟩]⟩
    ⟨.DISPUTE, 1, 1, none⟩ rfl rfl (Or.inl rfl) (by decide)
  exact ⟨h.1, h.2 _ (by decide)⟩

/-- C6: a locked account rejects every transaction type with the
account-locked error; a successful step never turns the locked flag off;
and in the ledger a locked account's entry is left exactly as it is by
every further processed transaction. -/
theorem locked_account_permanent (a : Account) (t : Transaction) :
    (t.client = a.id → a.locked = true →
      a.add_transaction t = .err "account is locked") ∧
    (∀ a', a.add_transaction t = .ok a' → a.locked = true →
      a'.locked = true) ∧
    (∀ (m m' : AccountMap) (k : Int),
      m.accounts.lookup k = some a → a.locked = true →
      m.add_transaction t t.client = .ok m' →
      m'.accounts.lookup k = some a) := by
  have hreject : t.client = a.id → a.locked = true →
      a.add_transaction t = .err "account is locked" := by
    intro hcl hlk
    simp [Account.add_transaction, hcl, hlk]
  have hpanic : t.client ≠ a.id →
      a.add_transaction t = .panicked clientMismatchPanic := by
    intro hcl
    simp [Account.add_transaction, hcl]
  refine ⟨hreject, ?_, ?_⟩
  · intro a' hok hlk
    by_cases hcl : t.client = a.id
    · rw [hreject hcl hlk] at hok; cases hok
    · rw [hpanic hcl] at hok; cases hok
  · intro m m' k hl hlk hstep
    by_cases hk : k = t.client
    · subst hk
      have hroute : m.routed_account t.client = a := by
        simp [AccountMap.routed_account, hl]
      by_cases hcl : t.client = a.id
      · unfold AccountMap.add_transaction at hstep
        rw [hroute, hreject hcl hlk] at hstep
        cases hstep
        exact hl
      · unfold AccountMap.add_transaction at hstep
        rw [hroute, hpanic hcl] at hstep
        cases hstep
    · unfold AccountMap.add_transaction at hstep
      cases hres : (m.routed_account t.client).add_transaction t with
      | ok ns =>
        rw [hres] at hstep
        cases hstep
        rw [lookup_insertAccount_ne m.accounts t.client k ns hk]
        exact hl
      | err msg =>
        rw [hres] at hstep
        cases hstep
        exact hl
      | panicked s =>
        rw [hres] at hstep
        cases hstep

/-- Witness for C6: a concrete locked account rejects a deposit, and its
ledger entry survives a further transaction unchanged. -/
theorem locked_account_permanent_witness :
    (⟨1, 10, 0, 10, true, []⟩ : Account).add_transaction
      ⟨.DEPOSIT, 1, 1, some 5⟩ = .err "account is locked" ∧
    (⟨[(1, ⟨1, 10, 0, 10, true, []⟩)], [], [⟨.DEPOSIT, 1, 1, some 5⟩]⟩ :
        AccountMap).accounts.lookup 1 = some ⟨1, 10, 0, 10, true, []⟩ := by
  have h := locked_account_permanent ⟨1, 10, 0, 10, true, []⟩
    ⟨.DEPOSIT, 1, 1, some 5⟩
  refine ⟨h.1 rfl rfl, ?_⟩
  exact h.2.2 ⟨[(1, ⟨1, 10, 0, 10, true, []⟩)], [], []⟩
    ⟨[(1, ⟨1, 10, 0, 10, true, []⟩)], [], [⟨.DEPOSIT, 1, 1, some 5⟩]⟩ 1
    (by decide) rfl (by decide)

/-- An entry found by the log scan is a member of the log. -/
theorem extract_mem {l : List Transaction} {txid : Int}
    {ty : TransactionType} {x : Transaction}
    (h : extract_transaction l txid ty = some x) : x ∈ l := by
  cases ty <;> simp only [extract_transaction, allowed_category] at h <;>
    first
      | cases h
      | exact List.mem_of_find?_eq_some h

/-- C7: on an unlocked account whose history is free of the id `txid`,
Deposit `amt` under `txid`, then Dispute `txid`, then Resolve `txid` all
succeed; the Resolve adds the deposit's amount back to available and
subtracts it from held, returning available, held, total and the lock
flag exactly to their pre-dispute values (and the account stays
unlocked). -/
theorem dispute_resolve_round_trip (a : Account) (txid : Int) (amt : ℚ)
    (hlock : a.locked = false)
    (hfresh : ∀ tr ∈ a.transaction_log, tr.tx ≠ txid) :
    ∃ a1 a2 a3 : Account,
      a.add_transaction ⟨.DEPOSIT, a.id, txid, some amt⟩ = .ok a1 ∧
      a1.add_transaction ⟨.DISPUTE, a.id, txid, none⟩ = .ok a2 ∧
      a2.add_transaction ⟨.RESOLVE, a.id, txid, none⟩ = .ok a3 ∧
      a3.amount_available = a2.amount_available + amt ∧
      a3.amount_held = a2.amount_held - amt ∧
      a3.total = a2.total ∧
      a3.amount_available = a1.amount_available ∧
      a3.amount_held = a1.amount_held ∧
      a3.total = a1.total ∧
      a3.locked = a1.locked ∧
      a3.locked = false := by
  have hd1 : extract_transaction
      (a.transaction_log ++ [⟨.DEPOSIT, a.id, txid, some amt⟩]) txid
      .DISPUTE = some ⟨.DEPOSIT, a.id, txid, some amt⟩ := by
    rw [extract_append_fresh _ _ hfresh]
    simp [extract_transaction, allowed_category]
  have hd2 : extract_transaction
      (a.transaction_log ++
        [⟨.DEPOSIT, a.id, txid, some amt⟩, ⟨.DISPUTE, a.id, txid, none⟩])
      txid .RESOLVE = some ⟨.DISPUTE, a.id, txid, none⟩ := by
    rw [extract_append_fresh _ _ hfresh]
    simp [extract_transaction, allowed_category]
  have hd3 : extract_transaction
      (a.transaction_log ++
        [⟨.DEPOSIT, a.id, txid, some amt⟩, ⟨.DISPUTE, a.id, txid, none⟩])
      txid .DISPUTE = some ⟨.DEPOSIT, a.id, txid, some amt⟩ := by
    rw [extract_append_fresh _ _ hfresh]
    simp [extract_transaction, allowed_category]
  refine ⟨{ a with amount_available := a.amount_available + amt
                   total := a.total + amt
                   transaction_log := a.transaction_log ++
                     [⟨.DEPOSIT, a.id, txid, some amt⟩] },
          { a with amount_available := a.amount_available + amt - amt
                   amount_held := a.amount_held + amt
                   total := a.total + amt
                   transaction_log := a.transaction_log ++
                     [⟨.DEPOSIT, a.id, txid, some amt⟩,
                      ⟨.DISPUTE, a.id, txid, none⟩] },
          { a with amount_available := a.amount_available + amt - amt + amt
                   amount_held := a.amount_held + amt - amt
                   total := a.total + amt
                   transaction_log := a.transaction_log ++
                     [⟨.DEPOSIT, a.id, txid, some amt⟩,
                      ⟨.DISPUTE, a.id, txid, none⟩,
                      ⟨.RESOLVE, a.id, txid, none⟩] },
          ?_, ?_, ?_, rfl, rfl, rfl, by dsimp; ring, by dsimp; ring, rfl,
          rfl, hlock⟩
  · simp [Account.add_transaction, hlock]
  · simp [Account.add_transaction, hlock, hd1]
  · simp [Account.add_transaction, hlock, hd2, hd3]

/-- Witness for C7: the round trip on a fresh account with a deposit of
7 under id 3. -/
theorem dispute_resolve_round_trip_witness :
    ∃ a1 a2 a3 : Account,
      (Account.new 1).add_transaction ⟨.DEPOSIT, (Account.new 1).id, 3,
        some 7⟩ = .ok a1 ∧
      a1.add_transaction ⟨.DISPUTE, (Account.new 1).id, 3, none⟩ = .ok a2 ∧
      a2.add_transaction ⟨.RESOLVE, (Account.new 1).id, 3, none⟩ = .ok a3 ∧
      a3.amount_available = a2.amount_available + 7 ∧
      a3.amount_held = a2.amount_held - 7 ∧
      a3.total = a2.total ∧
      a3.amount_available = a1.amount_available ∧
      a3.amount_held = a1.amount_held ∧
      a3.total = a1.total ∧
      a3.locked = a1.locked ∧
      a3.locked = false :=
  dispute_resolve_round_trip (Account.new 1) 3 7 rfl (by decide)

/-- C10: a successful Resolve appends the Resolve record to history and
leaves the matched Dispute record in place, so applying the same Resolve
a second time also succeeds and again adds the deposit's amount to
available and subtracts it from held; when the held balance equalled the
deposit's (positive) amount, the second resolve drives held negative. -/
theorem resolve_leaves_dispute_and_repeats (a : Account)
    (t disp dep : Transaction) (amt : ℚ)
    (hlock : a.locked = false) (hcl : t.client = a.id)
    (hty : t.transaction_type = .RESOLVE)
    (hdisp : extract_transaction a.transaction_log t.tx .RESOLVE = some disp)
    (hdep : extract_transaction a.transaction_log t.tx
      disp.transaction_type = some dep)
    (hamt : dep.amount = some amt) :
    ∃ a' a'' : Account,
      a.add_transaction t = .ok a' ∧
      a'.transaction_log = a.transaction_log ++ [t] ∧
      disp ∈ a'.transaction_log ∧
      a'.add_transaction t = .ok a'' ∧
      a''.amount_available = a'.amount_available + amt ∧
      a''.amount_held = a'.amount_held - amt ∧
      (a.amount_held = amt → 0 < amt → a''.amount_held < 0) := by
  have hdisp' := extract_append_left [t] hdisp
  have hdep' := extract_append_left [t] hdep
  refine ⟨{ a with amount_available := a.amount_available + amt
                   amount_held := a.amount_held - amt
                   transaction_log := a.transaction_log ++ [t] },
          { a with amount_available := a.amount_available + amt + amt
                   amount_held := a.amount_held - amt - amt
                   transaction_log := (a.transaction_log ++ [t]) ++ [t] },
          ?_, rfl, ?_, ?_, rfl, rfl, ?_⟩
  · simp [Account.add_transaction, hcl, hlock, hty, hdisp, hdep, hamt]
  · exact List.mem_append_left _ (extract_mem hdisp)
  · simp [Account.add_transaction, hcl, hlock, hty, hdisp', hdep', hamt]
  · intro hheld hpos
    dsimp
    rw [hheld]
    linarith

/-- Witness for C10: resolving the same dispute twice on a concrete
account that has a disputed deposit of 5 on record. -/
theorem resolve_leaves_dispute_and_repeats_witness :
    ∃ a' a'' : Account,
      (⟨1, 0, 5, 5, false, [⟨.DEPOSIT, 1, 1, some 5⟩,
          ⟨.DISPUTE, 1, 1, none⟩]⟩ : Account).add_transaction
        ⟨.RESOLVE, 1, 1, none⟩ = .ok a' ∧
      a'.transaction_log = [⟨.DEPOSIT, 1, 1, some 5⟩,
          ⟨.DISPUTE, 1, 1, none⟩] ++ [⟨.RESOLVE, 1, 1, none⟩] ∧
      (⟨.DISPUTE, 1, 1, none⟩ : Transaction) ∈ a'.transaction_log ∧
      a'.add_transaction ⟨.RESOLVE, 1, 1, none⟩ = .ok a'' ∧
      a''.amount_available = a'.amount_available + 5 ∧
      a''.amount_held = a'.amount_held - 5 ∧
      ((⟨1, 0, 5, 5, false, [⟨.DEPOSIT, 1, 1, some 5⟩,
          ⟨.DISPUTE, 1, 1, none⟩]⟩ : Account).amount_held = 5 → (0:ℚ) < 5 →
        a''.amount_held < 0) :=
  resolve_leaves_dispute_and_repeats
    ⟨1, 0, 5, 5, false, [⟨.DEPOSIT, 1, 1, some 5⟩, ⟨.DISPUTE, 1, 1, none⟩]⟩
    ⟨.RESOLVE, 1, 1, none⟩ ⟨.DISPUTE, 1, 1, none⟩ ⟨.DEPOSIT, 1, 1, some 5⟩
    5 rfl rfl rfl (by decide) (by decide) rfl

/-- Counterexample to C8: the very first transaction for client 7 is a
withdrawal that is rejected for insufficient funds; the ledger appends it
to the rejected log but never inserts the freshly created account, so the
accounts map still has no entry for client 7. -/
theorem rejected_first_transaction_creates_no_entry :
    AccountMap.new.add_transaction ⟨.WITHDRAWAL, 7, 1, some 5⟩ 7 =
      .ok ⟨[], [], [⟨.WITHDRAWAL, 7, 1, some 5⟩]⟩ ∧
    (⟨[], [], [⟨.WITHDRAWAL, 7, 1, some 5⟩]⟩ : AccountMap).accounts.lookup 7
      = none := by
  constructor
  · decide
  · rfl

/-- C8 (amended): when a transaction's client id is absent the ledger
routes it to a fresh zero-balance unlocked account; the accounts map
gains (or keeps) an entry for the client exactly when the account accepts
the transaction, and an entry that already exists survives every further
processed transaction (nothing ever removes it).  A rejected transaction
for a client with no existing entry does not create one. -/
theorem account_entry_creation (m : AccountMap) (t : Transaction) :
    (m.accounts.lookup t.client = none →
      m.routed_account t.client = Account.new t.client) ∧
    (∀ new_state : Account,
      (m.routed_account t.client).add_transaction t = .ok new_state →
      m.add_transaction t t.client =
        .ok { m with
              accounts := insertAccount m.accounts t.client new_state
              total_transaction_log := m.total_transaction_log ++ [t] } ∧
      (insertAccount m.accounts t.client new_state).lookup t.client =
        some new_state) ∧
    (∀ (msg : String),
      (m.routed_account t.client).add_transaction t = .err msg →
      m.add_transaction t t.client =
        .ok { m with
              total_error_transaction_log :=
                m.total_error_transaction_log ++ [t] }) ∧
    (∀ (m' : AccountMap) (k : Int),
      m.add_transaction t t.client = .ok m' →
      (m.accounts.lookup k).isSome = true →
      (m'.accounts.lookup k).isSome = true) := by
  refine ⟨?_, ?_, ?_, ?_⟩
  · intro h
    simp [AccountMap.routed_account, h]
  · intro ns hok
    refine ⟨by simp [AccountMap.add_transaction, hok], ?_⟩
    exact lookup_insertAccount_self _ _ _
  · intro msg herr
    simp [AccountMap.add_transaction, herr]
  · intro m' k hstep hsome
    unfold AccountMap.add_transaction at hstep
    cases hres : (m.routed_account t.client).add_transaction t with
    | ok ns =>
      rw [hres] at hstep
      cases hstep
      by_cases hk : k = t.client
      · subst hk
        rw [lookup_insertAccount_self]
        rfl
      · rw [lookup_insertAccount_ne m.accounts t.client k ns hk]
        exact hsome
    | err msg =>
      rw [hres] at hstep
      cases hstep
      exact hsome
    | panicked s =>
      rw [hres] at hstep
      cases hstep

/-- Witness for C8 (amended): a fresh client's accepted deposit creates
its entry, and the entry survives a later rejected withdrawal. -/
theorem account_entry_creation_witness :
    AccountMap.new.routed_account 7 = Account.new 7 ∧
    AccountMap.new.add_transaction ⟨.DEPOSIT, 7, 1, some 5⟩ 7 =
      .ok ⟨insertAccount [] 7 ⟨7, 5, 0, 5, false, [⟨.DEPOSIT, 7, 1, some 5⟩]⟩,
           [⟨.DEPOSIT, 7, 1, some 5⟩], []⟩ ∧
    ((⟨[(7, ⟨7, 5, 0, 5, false, [⟨.DEPOSIT, 7, 1, some 5⟩]⟩)],
        [⟨.DEPOSIT, 7, 1, some 5⟩],
        [⟨.WITHDRAWAL, 7, 2, some 50⟩]⟩ : AccountMap).accounts.lookup 7).isSome
      = true := by
  have h1 := (account_entry_creation AccountMap.new
    ⟨.DEPOSIT, 7, 1, some 5⟩).1 rfl
  have h2 := ((account_entry_creation AccountMap.new
    ⟨.DEPOSIT, 7, 1, some 5⟩).2.1
    ⟨7, 5, 0, 5, false, [⟨.DEPOSIT, 7, 1, some 5⟩]⟩ (by decide)).1
  have h3 := (account_entry_creation
    ⟨[(7, ⟨7, 5, 0, 5, false, [⟨.DEPOSIT, 7, 1, some 5⟩]⟩)],
      [⟨.DEPOSIT, 7, 1, some 5⟩], []⟩
    ⟨.WITHDRAWAL, 7, 2, some 50⟩).2.2.2
    ⟨[(7, ⟨7, 5, 0, 5, false, [⟨.DEPOSIT, 7, 1, some 5⟩]⟩)],
      [⟨.DEPOSIT, 7, 1, some 5⟩], [⟨.WITHDRAWAL, 7, 2, some 50⟩]⟩ 7
    (by decide) (by decide)
  exact ⟨h1, h2, h3⟩

/-- A successful association-list lookup yields a member pair. -/
theorem mem_of_lookup_eq_some {l : List (Int × Account)} {k : Int}
    {a : Account} (h : l.lookup k = some a) : (k, a) ∈ l := by
  induction l with
  | nil => cases h
  | cons p rest ih =>
    obtain ⟨k', a'⟩ := p
    by_cases hk : k = k'
    · subst hk
      simp only [List.lookup_cons_self, Option.some.injEq] at h
      simp [h]
    · have hbeq : (k == k') = false := beq_eq_false_iff_ne.mpr hk
      simp only [List.lookup_cons, hbeq] at h
      exact List.mem_cons_of_mem _ (ih h)

/-- On a well-keyed map, the account a transaction is routed to carries
the id it was looked up under. -/
theorem routed_account_id {m : AccountMap} (h : WellKeyed m) (cid : Int) :
    (m.routed_account cid).id = cid := by
  unfold AccountMap.routed_account
  cases hl : m.accounts.lookup cid with
  | none => rfl
  | some a => exact h (cid, a) (mem_of_lookup_eq_some hl)

/-- When the transaction's client matches the account's id, the only
panic `Account.add_transaction` can produce is an unwrap failure, never
the client-mismatch panic. -/
theorem add_transaction_panic_source {a : Account} {t : Transaction}
    {s : String} (hcl : t.client = a.id)
    (h : a.add_transaction t = .panicked s) : s = unwrapPanic := by
  unfold Account.add_transaction at h
  rw [if_neg (by simp [hcl])] at h
  repeat' split at h
  all_goals cases h
  all_goals rfl

/-- The two panic tags are distinct. -/
theorem unwrapPanic_ne_mismatch : unwrapPanic ≠ clientMismatchPanic := by
  decide

/-- Insert-or-replace preserves the well-keyed invariant when the new
account carries the key it is stored under. -/
theorem wellKeyed_insert {l : List (Int × Account)} {k : Int} {a : Account}
    (h : ∀ p ∈ l, p.2.id = p.1) (ha : a.id = k) :
    ∀ p ∈ insertAccount l k a, p.2.id = p.1 := by
  induction l with
  | nil =>
    intro p hp
    simp only [insertAccount, List.mem_singleton] at hp
    subst hp
    exact ha
  | cons q rest ih =>
    obtain ⟨k', a'⟩ := q
    intro p hp
    unfold insertAccount at hp
    by_cases hk : k' = k
    · rw [if_pos hk] at hp
      rcases List.mem_cons.mp hp with hp | hp
      · subst hp; exact ha
      · exact h p (List.mem_cons_of_mem _ hp)
    · rw [if_neg hk] at hp
      rcases List.mem_cons.mp hp with hp | hp
      · subst hp; exact h (k', a') (List.mem_cons_self _ _)
      · exact ih (fun q hq => h q (List.mem_cons_of_mem _ hq)) p hp

/-- One ledger step started from a well-keyed map yields a well-keyed
map. -/
theorem add_transaction_wellKeyed {m m' : AccountMap} {t : Transaction}
    (h : WellKeyed m)
    (hstep : m.add_transaction t t.client = .ok m') : WellKeyed m' := by
  unfold AccountMap.add_transaction at hstep
  cases hres : (m.routed_account t.client).add_transaction t with
  | ok ns =>
    rw [hres] at hstep
    cases hstep
    intro p hp
    exact wellKeyed_insert h
      ((add_transaction_id hres).trans (routed_account_id h t.client)) p hp
  | err msg =>
    rw [hres] at hstep
    cases hstep
    exact h
  | panicked s =>
    rw [hres] at hstep
    cases hstep

/-- One ledger step on a well-keyed map never fires the client-mismatch
panic. -/
theorem add_transaction_no_mismatch {m : AccountMap} (h : WellKeyed m)
    (t : Transaction) :
    m.add_transaction t t.client ≠ .panicked clientMismatchPanic := by
  unfold AccountMap.add_transaction
  cases hres : (m.routed_account t.client).add_transaction t with
  | ok ns => intro hc; cases hc
  | err msg => intro hc; cases hc
  | panicked s =>
    intro hc
    cases hc
    exact unwrapPanic_ne_mismatch
      (add_transaction_panic_source
        (routed_account_id h t.client).symm hres).symm

/-- Folding from a well-keyed map never fires the client-mismatch panic,
and a completed fold is again well-keyed. -/
theorem fold_transactions_no_mismatch (txs : List Transaction) :
    ∀ m : AccountMap, WellKeyed m →
      fold_transactions m txs ≠ .panicked clientMismatchPanic ∧
      ∀ m', fold_transactions m txs = .ok m' → WellKeyed m' := by
  induction txs with
  | nil =>
    intro m hm
    refine ⟨by simp [fold_transactions], ?_⟩
    intro m' h
    cases h
    exact hm
  | cons t rest ih =>
    intro m hm
    have hlog : log_transaction (some m) t = m.add_transaction t t.client :=
      rfl
    constructor
    · unfold fold_transactions
      rw [hlog]
      cases hres : m.add_transaction t t.client with
      | ok m1 => exact (ih m1 (add_transaction_wellKeyed hm hres)).1
      | panicked s =>
        intro hc
        cases hc
        exact add_transaction_no_mismatch hm t hres
    · intro m' h
      unfold fold_transactions at h
      rw [hlog] at h
      cases hres : m.add_transaction t t.client with
      | ok m1 =>
        rw [hres] at h
        exact (ih m1 (add_transaction_wellKeyed hm hres)).2 m' h
      | panicked s =>
        rw [hres] at h
        cases h

/-- C9: a processing run folded through `log_transaction` can never fire
the client-mismatch panic; every ledger it produces is well-keyed
(`accounts[k].id == k`), so `Account.add_transaction` is always invoked
on an account whose id equals the transaction's client, and a further
routed transaction cannot fire the mismatch panic either. -/
theorem routed_transactions_never_mismatch (txs : List Transaction) :
    run_transactions txs ≠ .panicked clientMismatchPanic ∧
    ∀ m : AccountMap, run_transactions txs = .ok m →
      WellKeyed m ∧
      (∀ t : Transaction, (m.routed_account t.client).id = t.client) ∧
      (∀ t : Transaction,
        m.add_transaction t t.client ≠ .panicked clientMismatchPanic) := by
  have hnew : WellKeyed AccountMap.new := by
    intro p hp
    cases hp
  have h := fold_transactions_no_mismatch txs AccountMap.new hnew
  refine ⟨h.1, fun m hm => ?_⟩
  have hwk := h.2 m hm
  exact ⟨hwk, fun t => routed_account_id hwk t.client,
    fun t => add_transaction_no_mismatch hwk t⟩

/-- Witness for C9: a one-deposit run neither panics nor produces a
mis-keyed ledger. -/
theorem routed_transactions_never_mismatch_witness :
    run_transactions [⟨.DEPOSIT, 1, 1, some 5⟩] ≠
      .panicked clientMismatchPanic ∧
    WellKeyed ⟨[(1, ⟨1, 5, 0, 5, false, [⟨.DEPOSIT, 1, 1, some 5⟩]⟩)],
      [⟨.DEPOSIT, 1, 1, some 5⟩], []⟩ := by
  have h := routed_transactions_never_mismatch [⟨.DEPOSIT, 1, 1, some 5⟩]
  exact ⟨h.1,
    (h.2 ⟨[(1, ⟨1, 5, 0, 5, false, [⟨.DEPOSIT, 1, 1, some 5⟩]⟩)],
      [⟨.DEPOSIT, 1, 1, some 5⟩], []⟩ (by decide)).1⟩

end Transactions
